import Mathlib

/-!
Verification of the Office 365 Subscription Watcher (go-office365).

This file embeds, in Lean, the watcher core found in the repository
(`SubscriptionWatcher`, its generator and fetcher loops, the per-content-type
state store, and the configuration validation of `NewSubscriptionWatcher`),
and proves the specification's claims about it.

Modelling conventions:
* Go `time.Time` and `time.Duration` are both nanosecond counts, modelled as
  unbounded `Int`.  The zero `time.Time{}` is `0`; `IsZero` is `= 0`;
  `Before`/`After` are `<`/`>`; `Sub` is subtraction (Go's `Sub` saturates at
  the int64 bounds, but every comparison made against it in this code uses a
  threshold far inside the int64 range, so branch selection is unchanged).
* Go duration arithmetic `time.Duration(n) * time.Minute` is 64-bit signed
  multiplication, which wraps; `wrap64` makes this explicit where it is
  observable (configuration validation and look-behind computation).
* Go `error` values are modelled as strings (`Err`).
* Go maps (`map[ContentType]T`) are modelled as functions
  `ContentType -> Option T`; a missing key is `none`.
* The HTTP collaborators (`Subscriptions.List`, `Content.List`, `Audit.List`)
  and the library call `time.ParseInLocation` are external; a fetch run takes
  them as oracle functions in a `FetchEnv`.
* Channel sends are modelled by collecting, in order, the values offered to
  the bus (generator) or emitted on the output (fetcher).  A fetcher run also
  records, as ghost data, the `Content.List` call it makes and the list of
  `Audit.List` calls, so that claims about which calls happen are statable.
-/

namespace Office365

/-- Nanosecond instant, modelling Go `time.Time` (zero value = 0). -/
abbrev Time := Int

/-- Go `error`, modelled as its message. -/
abbrev Err := String

/-- Go `time.Second` in nanoseconds. -/
def oneSecond : Int := 1000000000

/-- Go `time.Minute` in nanoseconds. -/
def oneMinute : Int := 60000000000

/-- Go `time.Hour` in nanoseconds. -/
def oneHour : Int := 3600000000000

/-- Modelled from the spec: the repository constant `intervalOneDay`
(its defining file is not in the sources); the spec states the API caps the
query window at 24 hours and the fetcher clamps with a 1-day interval. -/
def intervalOneDay : Int := 86400000000000

/-- 64-bit two's-complement wraparound of Go duration arithmetic. -/
def wrap64 (v : Int) : Int := (v + 2 ^ 63) % 2 ^ 64 - 2 ^ 63

/-- ContentType enum from `record.go`. -/
inductive ContentType where
  | AuditAzureActiveDirectory
  | AuditExchange
  | AuditSharePoint
  | AuditGeneral
  | DLPAll
deriving DecidableEq, Repr

/-- Modelled from the spec: the repository constant `contentTypeCount`
(its defining file is not in the sources); the enumeration has five members
and the constant sizes the fetcher pool and the bus capacity. -/
def contentTypeCount : Nat := 5

/-- The `contentTypes` literal map from `record.go`. -/
def contentTypes : List (String × ContentType) :=
  [("Audit.AzureActiveDirectory", .AuditAzureActiveDirectory),
   ("Audit.Exchange", .AuditExchange),
   ("Audit.SharePoint", .AuditSharePoint),
   ("Audit.General", .AuditGeneral),
   ("DLP.All", .DLPAll)]

/-- `GetContentType` from `record.go`: map lookup, error when absent. -/
def GetContentType (s : String) : Except Err ContentType :=
  match contentTypes.lookup s with
  | some v => Except.ok v
  | none => Except.error "ContentType invalid"

/-- Modelled from the spec: a `Subscription` as returned by
`Subscriptions.List`; the watcher consumes only its content-type string
(the full struct with status and webhook is not in the sources). -/
structure Subscription where
  ContentType : String
  Status : String := ""
deriving DecidableEq, Repr

/-- Modelled from the spec: a content descriptor returned by `Content.List`;
only `ContentID` and `ContentCreated` are load-bearing for the watcher. -/
structure Content where
  ContentID : String
  ContentCreated : String
deriving DecidableEq, Repr

/-- An audit record; the watcher treats records as opaque payloads, so only
the (nullable) envelope identifier is retained here. -/
structure AuditRecord where
  Id : Option String
deriving DecidableEq, Repr

/-- Modelled from the spec: the Request part of a `Resource`
(`ContentType`, `RequestTime`), populated by the Generator.  The content
type is a Go pointer in the source (the fetcher passes it straight to
`setBusy`, which dereferences it), hence `Option`: `none` is the nil
pointer of a Resource whose Request was never populated. -/
structure ResourceRequest where
  ContentType : Option ContentType := none
  RequestTime : Time := 0
deriving DecidableEq, Repr

/-- Modelled from the spec: the `Resource` message carried from Generator to
Fetcher to consumer: a Request part, a Response (sequence of audit records)
and an accumulated error list. -/
structure Resource where
  Request : ResourceRequest := {}
  Response : List AuditRecord := []
  Errors : List Err := []
deriving DecidableEq, Repr

/-- Modelled from the spec: `Resource.AddError` appends one error to the
Resource's accumulated error list. -/
def Resource.AddError (r : Resource) (e : Err) : Resource :=
  { r with Errors := r.Errors ++ [e] }

/-- Modelled from the spec: `Resource.SetRequest` populates the Request part
with the (non-nil) content type and the tick's request time. -/
def Resource.SetRequest (r : Resource) (ct : ContentType) (t : Time) : Resource :=
  { r with Request := { ContentType := some ct, RequestTime := t } }

/-- Modelled from the spec: `Resource.SetResponse` sets the Response part to
the given record sequence. -/
def Resource.SetResponse (r : Resource) (records : List AuditRecord) : Resource :=
  { r with Response := records }

/-- The watcher's per-content-type state maps (`contentTypeBusy`,
`lastContentCreated`, `lastRequestTime`); `none` models a missing key. -/
structure WatcherState where
  contentTypeBusy : ContentType → Option Bool
  lastContentCreated : ContentType → Option Time
  lastRequestTime : ContentType → Option Time

/-- The empty maps made by `NewSubscriptionWatcher`. -/
def initialState : WatcherState :=
  { contentTypeBusy := fun _ => none
    lastContentCreated := fun _ => none
    lastRequestTime := fun _ => none }

/-- `setBusy`: marks the content type busy. -/
def setBusy (s : WatcherState) (ct : ContentType) : WatcherState :=
  { s with contentTypeBusy := fun c => if c = ct then some true else s.contentTypeBusy c }

/-- `unsetBusy`: marks the content type not busy. -/
def unsetBusy (s : WatcherState) (ct : ContentType) : WatcherState :=
  { s with contentTypeBusy := fun c => if c = ct then some false else s.contentTypeBusy c }

/-- `isBusy`: reads the busy flag, defaulting a missing key to `false`
(the source also writes the default back; that write does not change any
subsequent read, so it is dropped here). -/
def isBusy (s : WatcherState) (ct : ContentType) : Bool :=
  match s.contentTypeBusy ct with
  | some b => b
  | none => false

/-- The monotonic write rule shared verbatim by `setLastContentCreated` and
`setLastRequestTime` in the source: store the incoming value when the key is
missing (`!ok`) or the present value is strictly older (`last.Before(t)`);
otherwise keep the present value. -/
def updateWatermark (prev : Option Time) (t : Time) : Option Time :=
  match prev with
  | none => some t
  | some last => if last < t then some t else some last

/-- `setLastContentCreated`: monotonic write of the creation watermark. -/
def setLastContentCreated (s : WatcherState) (ct : ContentType) (t : Time) : WatcherState :=
  { s with lastContentCreated := fun c =>
      if c = ct then updateWatermark (s.lastContentCreated ct) t else s.lastContentCreated c }

/-- `getLastContentCreated`: read, with `time.Time{}` (= 0) for a missing key. -/
def getLastContentCreated (s : WatcherState) (ct : ContentType) : Time :=
  match s.lastContentCreated ct with
  | none => 0
  | some t => t

/-- `setLastRequestTime`: monotonic write of the request-time watermark. -/
def setLastRequestTime (s : WatcherState) (ct : ContentType) (t : Time) : WatcherState :=
  { s with lastRequestTime := fun c =>
      if c = ct then updateWatermark (s.lastRequestTime ct) t else s.lastRequestTime c }

/-- `getLastRequestTime`: read, with `time.Time{}` (= 0) for a missing key. -/
def getLastRequestTime (s : WatcherState) (ct : ContentType) : Time :=
  match s.lastRequestTime ct with
  | none => 0
  | some t => t

/-- Watcher configuration. -/
structure SubscriptionWatcherConfig where
  LookBehindMinutes : Int
  TickerIntervalSeconds : Int
deriving DecidableEq, Repr

/-- A constructed watcher: the client, bus and lock fields of the source
struct are plumbing outside this model; the configuration and the initial
(empty) state maps are retained. -/
structure SubscriptionWatcher where
  config : SubscriptionWatcherConfig
  state : WatcherState

/-- `NewSubscriptionWatcher`: validates the configuration and builds the
watcher.  `time.Duration(n) * time.Minute` is 64-bit multiplication, hence
`wrap64`. -/
def NewSubscriptionWatcher (conf : SubscriptionWatcherConfig) :
    Except Err SubscriptionWatcher :=
  let lookBehindDur := wrap64 (conf.LookBehindMinutes * oneMinute)
  if lookBehindDur ≤ 0 then
    Except.error "lookBehindMinutes must be greater than 0"
  else if lookBehindDur > 24 * oneHour then
    Except.error "lookBehindMinutes must be less than or equal to 24 hours"
  else
    let tickerIntervalDur := wrap64 (conf.TickerIntervalSeconds * oneSecond)
    if tickerIntervalDur ≤ 0 then
      Except.error "tickerIntervalSeconds must be greater than 0"
    else if tickerIntervalDur > oneHour then
      Except.error "tickerIntervalSeconds must be less than or equal to 1 hour"
    else
      Except.ok { config := conf, state := initialState }

/-- Whether construction succeeded. -/
def constructionOk (conf : SubscriptionWatcherConfig) : Bool :=
  match NewSubscriptionWatcher conf with
  | Except.ok _ => true
  | Except.error _ => false

/-- The body of the generator's per-tick task, from the point where
`Subscriptions.List` has returned: one pass over the subscriptions,
threading the single mutable `resource` value of the source through the
loop and collecting, in order, every Resource value offered to the bus. -/
def generatorLoop (busy : ContentType → Bool) (t : Time) :
    Resource → List Subscription → List Resource
  | _, [] => []
  | resource, sub :: rest =>
    match GetContentType sub.ContentType with
    | Except.error e =>
      let r := resource.AddError e
      r :: generatorLoop busy t r rest
    | Except.ok ct =>
      if busy ct then generatorLoop busy t resource rest
      else
        let r := resource.SetRequest ct t
        r :: generatorLoop busy t r rest

/-- One tick of the generator: `resource := Resource{}`, then either the
error-only Resource when `Subscriptions.List` failed, or the subscription
loop.  `busy` is the state store's busy read at request time and `t` the
tick instant. -/
def generatorTick (busy : ContentType → Bool) (t : Time)
    (listResult : Except Err (List Subscription)) : List Resource :=
  match listResult with
  | Except.error e => [Resource.AddError {} e]
  | Except.ok subscriptions => generatorLoop busy t {} subscriptions

/-- The external collaborators a fetch consumes: `Content.List`,
`Audit.List`, and `time.ParseInLocation(CreatedDatetimeFormat, _, time.Local)`
(the latter returns the parsed local-time instant or a parse error). -/
structure FetchEnv where
  contentList : ContentType → Time → Time → Except Err (List Content)
  auditList : String → Except Err (List AuditRecord)
  parseCreated : String → Except Err Time

/-- Result of the fetcher's descriptor loop: final state, final resource,
accumulated records, and (ghost) the `Audit.List` calls made, in order. -/
structure LoopResult where
  state : WatcherState
  resource : Resource
  records : List AuditRecord
  auditCalls : List String

/-- Step 6 of a fetch: iterate the content descriptors in returned order.
`lastCC` is the `lastContentCreated` value read once before the loop (the
source compares every descriptor against that snapshot, not the live map).
For each descriptor: parse `ContentCreated` (on error append and continue);
skip when `!created.After(lastCC)`; otherwise write the watermark, call
`Audit.List` (on error append and continue), and append the records. -/
def processContent (env : FetchEnv) (ct : ContentType) (lastCC : Time) :
    WatcherState → Resource → List AuditRecord → List String → List Content → LoopResult
  | s, r, records, calls, [] => ⟨s, r, records, calls⟩
  | s, r, records, calls, c :: rest =>
    match env.parseCreated c.ContentCreated with
    | Except.error e => processContent env ct lastCC s (r.AddError e) records calls rest
    | Except.ok created =>
      if created ≤ lastCC then
        processContent env ct lastCC s r records calls rest
      else
        let s' := setLastContentCreated s ct created
        match env.auditList c.ContentID with
        | Except.error e =>
          processContent env ct lastCC s' (r.AddError e) records (calls ++ [c.ContentID]) rest
        | Except.ok audits =>
          processContent env ct lastCC s' r (records ++ audits) (calls ++ [c.ContentID]) rest

/-- Observable outcome of one fetcher iteration: final state, the Resources
emitted on the output in order, and (ghost) the `Content.List` call made and
the `Audit.List` calls made. -/
structure FetchOutput where
  state : WatcherState
  emitted : List Resource
  contentCall : Option (ContentType × Time × Time)
  auditCalls : List String

/-- The fetcher's window-start switch (§ step 3 of the worker loop), on the
tick's request time `R` and the stored `lastRequestTime` (0 when unset):
`delta := lastRequestTime - R` is signed; when `lastRequestTime` is zero or
`delta < 1 minute` the start is `R` minus the look-behind (64-bit duration
arithmetic, hence `wrap64`); when `delta > 1 day` the start is `R - 1 day`;
otherwise the start is `lastRequestTime` itself. -/
def windowStart (cfg : SubscriptionWatcherConfig) (lastRequestTime R : Time) : Time :=
  if lastRequestTime = 0 ∨ lastRequestTime - R < oneMinute then
    R - wrap64 (cfg.LookBehindMinutes * oneMinute)
  else if lastRequestTime - R > intervalOneDay then
    R - intervalOneDay
  else lastRequestTime

/-- One iteration of the fetcher worker on a Resource received from the bus.
`Except.error` is a runtime fault: the first statement,
`setBusy(r.Request.ContentType)`, dereferences the Request's content-type
pointer, which is nil when the Request was never populated. -/
def fetchStep (cfg : SubscriptionWatcherConfig) (env : FetchEnv)
    (s : WatcherState) (r : Resource) : Except Err FetchOutput :=
  match r.Request.ContentType with
  | none => Except.error "runtime error: invalid memory address or nil pointer dereference"
  | some ct =>
    let s1 := setBusy s ct
    let lastRequestTime := getLastRequestTime s1 ct
    let lastContentCreated := getLastContentCreated s1 ct
    let endT := r.Request.RequestTime
    let start := windowStart cfg lastRequestTime r.Request.RequestTime
    match env.contentList ct start endT with
    | Except.error e =>
      Except.ok ⟨unsetBusy s1 ct, [r.AddError e], some (ct, start, endT), []⟩
    | Except.ok content =>
      let s2 := setLastRequestTime s1 ct r.Request.RequestTime
      let res := processContent env ct lastContentCreated s2 r [] [] content
      Except.ok ⟨unsetBusy res.state ct, [res.resource.SetResponse res.records],
        some (ct, start, endT), res.auditCalls⟩

/-! ### Closed forms for the descriptor loop

Per-descriptor summaries of step 6, stated against the `lastContentCreated`
snapshot the loop compares with.  They package what the loop does for one
descriptor: whether `Audit.List` is called, which records it contributes,
which error it contributes, and how it moves the watermark. -/

/-- The `Audit.List` call a descriptor causes: none when its timestamp fails
to parse or it is at or below the watermark snapshot. -/
def descCall (env : FetchEnv) (lastCC : Time) (c : Content) : Option String :=
  match env.parseCreated c.ContentCreated with
  | Except.error _ => none
  | Except.ok created => if created ≤ lastCC then none else some c.ContentID

/-- The records a descriptor contributes to the response: none when skipped
or when its `Audit.List` fails. -/
def descRecords (env : FetchEnv) (lastCC : Time) (c : Content) : List AuditRecord :=
  match env.parseCreated c.ContentCreated with
  | Except.error _ => []
  | Except.ok created =>
    if created ≤ lastCC then []
    else
      match env.auditList c.ContentID with
      | Except.error _ => []
      | Except.ok audits => audits

/-- Concatenated record contributions of a descriptor sequence, in order. -/
def descRecordsAll (env : FetchEnv) (lastCC : Time) : List Content → List AuditRecord
  | [] => []
  | c :: rest => descRecords env lastCC c ++ descRecordsAll env lastCC rest

/-- The error a descriptor contributes: its parse error, or its `Audit.List`
error when it passed the watermark check. -/
def descErr (env : FetchEnv) (lastCC : Time) (c : Content) : Option Err :=
  match env.parseCreated c.ContentCreated with
  | Except.error e => some e
  | Except.ok created =>
    if created ≤ lastCC then none
    else
      match env.auditList c.ContentID with
      | Except.error e => some e
      | Except.ok _ => none

/-- How one descriptor moves the `lastContentCreated` map entry: a monotonic
write of its parsed timestamp when it passes the watermark check (before and
regardless of its `Audit.List` call), else no change. -/
def wmStep (env : FetchEnv) (lastCC : Time) (w : Option Time) (c : Content) : Option Time :=
  match env.parseCreated c.ContentCreated with
  | Except.error _ => w
  | Except.ok created => if created ≤ lastCC then w else updateWatermark w created

/-! ### Concrete fixtures used to evaluate the model on closed inputs -/

/-- A default in-bounds configuration (`LookBehindMinutes=60`,
`TickerIntervalSeconds=300`). -/
def cfgDefault : SubscriptionWatcherConfig :=
  { LookBehindMinutes := 60, TickerIntervalSeconds := 300 }

/-- Collaborators whose content listing succeeds with no descriptors. -/
def envEmptyOk : FetchEnv :=
  { contentList := fun _ _ _ => Except.ok []
    auditList := fun _ => Except.ok []
    parseCreated := fun _ => Except.error "parse error" }

/-- Collaborators whose content listing always fails with a transport error. -/
def envListFails : FetchEnv :=
  { contentList := fun _ _ _ => Except.error "transport_err"
    auditList := fun _ => Except.ok []
    parseCreated := fun _ => Except.error "parse error" }

/-- Collaborators for the spec's Scenario E: two descriptors, the first
audit listing fails, the second returns one record. -/
def envScenarioE : FetchEnv :=
  { contentList := fun _ _ _ =>
      Except.ok [{ ContentID := "C1", ContentCreated := "t1" },
                 { ContentID := "C2", ContentCreated := "t2" }]
    auditList := fun cid =>
      if cid = "C1" then Except.error "audit_err_C1"
      else Except.ok [{ Id := some "r5" }]
    parseCreated := fun str =>
      if str = "t1" then Except.ok 1
      else if str = "t2" then Except.ok 2
      else Except.error "bad format" }

/-! ### Helper lemmas -/

/-- The monotonic write rule yields the max of the previous and incoming
values (the incoming value when the key was missing). -/
lemma updateWatermark_eq_max (prev : Option Time) (t : Time) :
    updateWatermark prev t = some (prev.elim t (fun last => max last t)) := by
  cases prev with
  | none => rfl
  | some last =>
    simp only [updateWatermark, Option.elim]
    by_cases h : last < t
    · rw [if_pos h, max_eq_right h.le]
    · rw [if_neg h, max_eq_left (not_lt.mp h)]

/-- `wrap64` is the identity on the int64 range. -/
lemma wrap64_eq_self (v : Int) (h1 : -(2 ^ 63) ≤ v) (h2 : v < 2 ^ 63) :
    wrap64 v = v := by
  unfold wrap64
  omega

/-- Errors already on a Resource survive `AddError`. -/
lemma mem_errors_addError (r : Resource) (e e' : Err) (h : e ∈ r.Errors) :
    e ∈ (r.AddError e').Errors := by
  simp only [Resource.AddError, List.mem_append]
  exact Or.inl h

/-- Along the generator's subscription loop, the error list of the threaded
resource only grows, so an error present on it is present on every resource
the rest of the loop offers to the bus. -/
lemma generatorLoop_errors_mono (busy : ContentType → Bool) (t : Time) :
    ∀ (subs : List Subscription) (r : Resource) (e : Err), e ∈ r.Errors →
      ∀ res ∈ generatorLoop busy t r subs, e ∈ res.Errors := by
  intro subs
  induction subs with
  | nil => intro r e _ res hres; simp [generatorLoop] at hres
  | cons sub rest ih =>
    intro r e he res hres
    simp only [generatorLoop] at hres
    cases hg : GetContentType sub.ContentType with
    | error err =>
      rw [hg] at hres
      rcases List.mem_cons.mp hres with h | h
      · subst h; exact mem_errors_addError r e err he
      · exact ih _ e (mem_errors_addError r e err he) res h
    | ok ct =>
      simp only [hg] at hres
      by_cases hb : busy ct
      · rw [if_pos hb] at hres
        exact ih r e he res hres
      · rw [if_neg hb] at hres
        rcases List.mem_cons.mp hres with h | h
        · subst h; simpa [Resource.SetRequest] using he
        · exact ih _ e (by simpa [Resource.SetRequest] using he) res h

/-- `descRecordsAll` distributes over append. -/
lemma descRecordsAll_append (env : FetchEnv) (lastCC : Time) (xs ys : List Content) :
    descRecordsAll env lastCC (xs ++ ys) =
      descRecordsAll env lastCC xs ++ descRecordsAll env lastCC ys := by
  induction xs with
  | nil => simp [descRecordsAll]
  | cons c rest ih => simp [descRecordsAll, ih, List.append_assoc]

/-- The descriptor loop leaves the resource's Request part untouched. -/
lemma processContent_request (env : FetchEnv) (ct : ContentType) (lastCC : Time) :
    ∀ (content : List Content) (s : WatcherState) (r : Resource)
      (records : List AuditRecord) (calls : List String),
      (processContent env ct lastCC s r records calls content).resource.Request = r.Request := by
  intro content
  induction content with
  | nil => intro s r records calls; rfl
  | cons c rest ih =>
    intro s r records calls
    cases hp : env.parseCreated c.ContentCreated with
    | error e => simp [processContent, hp, ih, Resource.AddError]
    | ok created =>
      by_cases hc : created ≤ lastCC
      · simp [processContent, hp, hc, ih]
      · cases ha : env.auditList c.ContentID with
        | error e => simp [processContent, hp, hc, ha, ih, Resource.AddError]
        | ok audits => simp [processContent, hp, hc, ha, ih]

/-- The descriptor loop leaves the resource's Response part untouched. -/
lemma processContent_response (env : FetchEnv) (ct : ContentType) (lastCC : Time) :
    ∀ (content : List Content) (s : WatcherState) (r : Resource)
      (records : List AuditRecord) (calls : List String),
      (processContent env ct lastCC s r records calls content).resource.Response = r.Response := by
  intro content
  induction content with
  | nil => intro s r records calls; rfl
  | cons c rest ih =>
    intro s r records calls
    cases hp : env.parseCreated c.ContentCreated with
    | error e => simp [processContent, hp, ih, Resource.AddError]
    | ok created =>
      by_cases hc : created ≤ lastCC
      · simp [processContent, hp, hc, ih]
      · cases ha : env.auditList c.ContentID with
        | error e => simp [processContent, hp, hc, ha, ih, Resource.AddError]
        | ok audits => simp [processContent, hp, hc, ha, ih]

/-- The errors appended by the descriptor loop are exactly the per-descriptor
error contributions, in order. -/
lemma processContent_errors (env : FetchEnv) (ct : ContentType) (lastCC : Time) :
    ∀ (content : List Content) (s : WatcherState) (r : Resource)
      (records : List AuditRecord) (calls : List String),
      (processContent env ct lastCC s r records calls content).resource.Errors =
        r.Errors ++ content.filterMap (descErr env lastCC) := by
  intro content
  induction content with
  | nil => intro s r records calls; simp [processContent]
  | cons c rest ih =>
    intro s r records calls
    cases hp : env.parseCreated c.ContentCreated with
    | error e => simp [processContent, descErr, hp, ih, Resource.AddError]
    | ok created =>
      by_cases hc : created ≤ lastCC
      · simp [processContent, descErr, hp, hc, ih]
      · cases ha : env.auditList c.ContentID with
        | error e => simp [processContent, descErr, hp, hc, ha, ih, Resource.AddError]
        | ok audits => simp [processContent, descErr, hp, hc, ha, ih]

/-- The records accumulated by the descriptor loop are exactly the
per-descriptor record contributions, in order. -/
lemma processContent_records (env : FetchEnv) (ct : ContentType) (lastCC : Time) :
    ∀ (content : List Content) (s : WatcherState) (r : Resource)
      (records : List AuditRecord) (calls : List String),
      (processContent env ct lastCC s r records calls content).records =
        records ++ descRecordsAll env lastCC content := by
  intro content
  induction content with
  | nil => intro s r records calls; simp [processContent, descRecordsAll]
  | cons c rest ih =>
    intro s r records calls
    cases hp : env.parseCreated c.ContentCreated with
    | error e => simp [processContent, descRecordsAll, descRecords, hp, ih]
    | ok created =>
      by_cases hc : created ≤ lastCC
      · simp [processContent, descRecordsAll, descRecords, hp, hc, ih]
      · cases ha : env.auditList c.ContentID with
        | error e => simp [processContent, descRecordsAll, descRecords, hp, hc, ha, ih]
        | ok audits => simp [processContent, descRecordsAll, descRecords, hp, hc, ha, ih]

/-- The `Audit.List` calls made by the descriptor loop are exactly the
per-descriptor call contributions, in order. -/
lemma processContent_calls (env : FetchEnv) (ct : ContentType) (lastCC : Time) :
    ∀ (content : List Content) (s : WatcherState) (r : Resource)
      (records : List AuditRecord) (calls : List String),
      (processContent env ct lastCC s r records calls content).auditCalls =
        calls ++ content.filterMap (descCall env lastCC) := by
  intro content
  induction content with
  | nil => intro s r records calls; simp [processContent]
  | cons c rest ih =>
    intro s r records calls
    cases hp : env.parseCreated c.ContentCreated with
    | error e => simp [processContent, descCall, hp, ih]
    | ok created =>
      by_cases hc : created ≤ lastCC
      · simp [processContent, descCall, hp, hc, ih]
      · cases ha : env.auditList c.ContentID with
        | error e => simp [processContent, descCall, hp, hc, ha, ih]
        | ok audits => simp [processContent, descCall, hp, hc, ha, ih]

/-- The descriptor loop does not touch the busy map. -/
lemma processContent_busy (env : FetchEnv) (ct : ContentType) (lastCC : Time) :
    ∀ (content : List Content) (s : WatcherState) (r : Resource)
      (records : List AuditRecord) (calls : List String),
      (processContent env ct lastCC s r records calls content).state.contentTypeBusy =
        s.contentTypeBusy := by
  intro content
  induction content with
  | nil => intro s r records calls; rfl
  | cons c rest ih =>
    intro s r records calls
    cases hp : env.parseCreated c.ContentCreated with
    | error e => simp [processContent, hp, ih]
    | ok created =>
      by_cases hc : created ≤ lastCC
      · simp [processContent, hp, hc, ih]
      · cases ha : env.auditList c.ContentID with
        | error e => simp [processContent, hp, hc, ha, ih, setLastContentCreated]
        | ok audits => simp [processContent, hp, hc, ha, ih, setLastContentCreated]

/-- The descriptor loop does not touch the `lastRequestTime` map. -/
lemma processContent_lrt (env : FetchEnv) (ct : ContentType) (lastCC : Time) :
    ∀ (content : List Content) (s : WatcherState) (r : Resource)
      (records : List AuditRecord) (calls : List String),
      (processContent env ct lastCC s r records calls content).state.lastRequestTime =
        s.lastRequestTime := by
  intro content
  induction content with
  | nil => intro s r records calls; rfl
  | cons c rest ih =>
    intro s r records calls
    cases hp : env.parseCreated c.ContentCreated with
    | error e => simp [processContent, hp, ih]
    | ok created =>
      by_cases hc : created ≤ lastCC
      · simp [processContent, hp, hc, ih]
      · cases ha : env.auditList c.ContentID with
        | error e => simp [processContent, hp, hc, ha, ih, setLastContentCreated]
        | ok audits => simp [processContent, hp, hc, ha, ih, setLastContentCreated]

/-- The `lastContentCreated` entry after the descriptor loop is the fold of
the per-descriptor watermark moves over the entry it started from; other
content types are untouched. -/
lemma processContent_lcc (env : FetchEnv) (ct : ContentType) (lastCC : Time) :
    ∀ (content : List Content) (s : WatcherState) (r : Resource)
      (records : List AuditRecord) (calls : List String) (x : ContentType),
      (processContent env ct lastCC s r records calls content).state.lastContentCreated x =
        if x = ct then List.foldl (wmStep env lastCC) (s.lastContentCreated ct) content
        else s.lastContentCreated x := by
  intro content
  induction content with
  | nil =>
    intro s r records calls x
    by_cases hx : x = ct
    · subst hx; simp [processContent]
    · simp [processContent, hx]
  | cons c rest ih =>
    intro s r records calls x
    cases hp : env.parseCreated c.ContentCreated with
    | error e =>
      simp only [processContent, hp]
      rw [ih s (r.AddError e) records calls x]
      simp [wmStep, hp]
    | ok created =>
      by_cases hc : created ≤ lastCC
      · simp only [processContent, hp, if_pos hc]
        rw [ih s r records calls x]
        simp [wmStep, hp, hc]
      · have hlcc_at : (setLastContentCreated s ct created).lastContentCreated ct =
            updateWatermark (s.lastContentCreated ct) created := by
          simp [setLastContentCreated]
        have hlcc_ne : ∀ y, y ≠ ct →
            (setLastContentCreated s ct created).lastContentCreated y =
              s.lastContentCreated y := by
          intro y hy; simp [setLastContentCreated, hy]
        have hfold : List.foldl (wmStep env lastCC) (s.lastContentCreated ct) (c :: rest) =
            List.foldl (wmStep env lastCC) (updateWatermark (s.lastContentCreated ct) created)
              rest := by
          simp [List.foldl_cons, wmStep, hp, hc]
        cases ha : env.auditList c.ContentID with
        | error e =>
          simp only [processContent, hp, if_neg hc, ha]
          rw [ih (setLastContentCreated s ct created) (r.AddError e) records
            (calls ++ [c.ContentID]) x, hfold]
          by_cases hx : x = ct
          · subst hx; simp [hlcc_at]
          · simp [hx, hlcc_ne x hx]
        | ok audits =>
          simp only [processContent, hp, if_neg hc, ha]
          rw [ih (setLastContentCreated s ct created) r (records ++ audits)
            (calls ++ [c.ContentID]) x, hfold]
          by_cases hx : x = ct
          · subst hx; simp [hlcc_at]
          · simp [hx, hlcc_ne x hx]

/-- A monotonic write lands at or above the incoming value. -/
lemma updateWatermark_some_ge (w : Option Time) (t : Time) :
    ∃ x, updateWatermark w t = some x ∧ t ≤ x := by
  refine ⟨_, updateWatermark_eq_max w t, ?_⟩
  cases w with
  | none => simp
  | some last => simp [le_max_right]

/-- Folding watermark moves over any descriptor sequence never loses a lower
bound already established. -/
lemma foldl_wmStep_ge (env : FetchEnv) (lastCC : Time) :
    ∀ (content : List Content) (w : Option Time) (v : Time),
      (∃ x, w = some x ∧ v ≤ x) →
      ∃ y, List.foldl (wmStep env lastCC) w content = some y ∧ v ≤ y := by
  intro content
  induction content with
  | nil =>
    rintro w v ⟨x, hw, hv⟩
    exact ⟨x, by simp [hw], hv⟩
  | cons c rest ih =>
    rintro w v ⟨x, hw, hv⟩
    rw [List.foldl_cons]
    apply ih
    cases hp : env.parseCreated c.ContentCreated with
    | error e => exact ⟨x, by simp [wmStep, hp, hw], hv⟩
    | ok created =>
      by_cases hc : created ≤ lastCC
      · exact ⟨x, by simp [wmStep, hp, hc, hw], hv⟩
      · subst hw
        refine ⟨max x created, ?_, le_trans hv (le_max_left x created)⟩
        simp [wmStep, hp, hc, updateWatermark_eq_max]

/-- `SetResponse` leaves the error list unchanged. -/
lemma setResponse_errors (r : Resource) (records : List AuditRecord) :
    (Resource.SetResponse r records).Errors = r.Errors := rfl

/-- `SetResponse` leaves the Request part unchanged. -/
lemma setResponse_request (r : Resource) (records : List AuditRecord) :
    (Resource.SetResponse r records).Request = r.Request := rfl

/-- `SetResponse` installs the given records as the Response. -/
lemma setResponse_response (r : Resource) (records : List AuditRecord) :
    (Resource.SetResponse r records).Response = records := rfl

/-- A record contributed by a member descriptor appears in the concatenated
contributions of the whole sequence. -/
lemma mem_descRecordsAll (env : FetchEnv) (lastCC : Time) :
    ∀ (l : List Content) (d : Content), d ∈ l →
      ∀ a ∈ descRecords env lastCC d, a ∈ descRecordsAll env lastCC l := by
  intro l
  induction l with
  | nil =>
    intro d hd
    simp at hd
  | cons x rest ih =>
    intro d hd a ha
    rcases List.mem_cons.mp hd with h | h
    · subst h
      exact List.mem_append_left _ ha
    · exact List.mem_append_right _ (ih d h a ha)

/-! ### Claims -/

/-- C6: For every content type and every call to `setLastRequestTime` or
`setLastContentCreated` with incoming value `t`, the stored value afterwards
equals the maximum of the previous value and `t` (`t` when previously unset);
hence the stored watermark sequence per content type is non-decreasing. -/
theorem watermark_setters_monotonic_max (s : WatcherState) (ct : ContentType) (t : Time) :
    (setLastRequestTime s ct t).lastRequestTime ct =
      some ((s.lastRequestTime ct).elim t (fun last => max last t)) ∧
    (setLastContentCreated s ct t).lastContentCreated ct =
      some ((s.lastContentCreated ct).elim t (fun last => max last t)) ∧
    (∀ l v, s.lastRequestTime ct = some l →
      (setLastRequestTime s ct t).lastRequestTime ct = some v → l ≤ v) ∧
    (∀ l v, s.lastContentCreated ct = some l →
      (setLastContentCreated s ct t).lastContentCreated ct = some v → l ≤ v) := by
  have h1 : (setLastRequestTime s ct t).lastRequestTime ct =
      updateWatermark (s.lastRequestTime ct) t := by
    simp [setLastRequestTime]
  have h2 : (setLastContentCreated s ct t).lastContentCreated ct =
      updateWatermark (s.lastContentCreated ct) t := by
    simp [setLastContentCreated]
  refine ⟨h1.trans (updateWatermark_eq_max _ t), h2.trans (updateWatermark_eq_max _ t), ?_, ?_⟩
  · intro l v hl hv
    rw [h1.trans (updateWatermark_eq_max _ t), hl] at hv
    simp only [Option.elim, Option.some.injEq] at hv
    subst hv
    exact le_max_left l t
  · intro l v hl hv
    rw [h2.trans (updateWatermark_eq_max _ t), hl] at hv
    simp only [Option.elim, Option.some.injEq] at hv
    subst hv
    exact le_max_left l t

/-- Witness for C6 at a concrete input: store 5, then store 3; the stored
value stays 5 and is not below the previous value. -/
theorem watermark_setters_monotonic_max_witness :
    (setLastRequestTime (setLastRequestTime initialState ContentType.AuditExchange 5)
      ContentType.AuditExchange 3).lastRequestTime ContentType.AuditExchange = some 5 ∧
    (5 : Time) ≤ 5 := by
  refine ⟨by decide, ?_⟩
  exact (watermark_setters_monotonic_max
      (setLastRequestTime initialState ContentType.AuditExchange 5)
      ContentType.AuditExchange 3).2.2.1 5 5 (by decide) (by decide)

/-- C10: Within a single tick the generator threads one Resource value
through the whole subscription loop; after a content-type resolution failure
at one subscription, every resource offered to the bus by the remainder of
the loop (including those for valid, non-busy subscriptions) carries that
accumulated error. -/
theorem generator_error_accumulation (busy : ContentType → Bool) (t : Time)
    (r : Resource) (sub : Subscription) (rest : List Subscription) (e : Err)
    (hsub : GetContentType sub.ContentType = Except.error e) :
    ∀ res ∈ generatorLoop busy t r (sub :: rest), e ∈ res.Errors := by
  intro res hres
  simp only [generatorLoop, hsub] at hres
  rcases List.mem_cons.mp hres with h | h
  · subst h
    simp [Resource.AddError]
  · exact generatorLoop_errors_mono busy t rest (r.AddError e) e
      (by simp [Resource.AddError]) res h

/-- Witness for C10: a tick whose subscriptions are an invalid entry followed
by a valid `Audit.Exchange` one; the resource offered for the valid
subscription still carries the resolution error. -/
theorem generator_error_accumulation_witness :
    (Resource.SetRequest (Resource.AddError {} "ContentType invalid")
        ContentType.AuditExchange 0) ∈
      generatorLoop (fun _ => false) 0 {}
        [{ ContentType := "Bogus" }, { ContentType := "Audit.Exchange" }] ∧
    "ContentType invalid" ∈
      (Resource.SetRequest (Resource.AddError {} "ContentType invalid")
        ContentType.AuditExchange 0).Errors := by
  refine ⟨by decide, ?_⟩
  exact generator_error_accumulation (fun _ => false) 0 {}
    { ContentType := "Bogus" } [{ ContentType := "Audit.Exchange" }]
    "ContentType invalid" rfl _ (by decide)

/-- C1 (code bug): when `Subscriptions.List` fails, the generator does offer
an error-only Resource (no Request populated, a single error) to the bus, as
claimed; but a fetcher receiving that Resource faults at its very first
statement, because `setBusy(r.Request.ContentType)` dereferences the nil
content-type pointer of the unpopulated Request, instead of processing the
Resource and continuing. -/
theorem listing_failure_error_only_resource_faults_fetcher :
    generatorTick (fun _ => false) 0 (Except.error "boom") =
      [{ Request := {}, Response := [], Errors := ["boom"] }] ∧
    fetchStep { LookBehindMinutes := 60, TickerIntervalSeconds := 300 }
      { contentList := fun _ _ _ => Except.ok []
        auditList := fun _ => Except.ok []
        parseCreated := fun _ => Except.error "parse" }
      initialState { Request := {}, Response := [], Errors := ["boom"] } =
      Except.error "runtime error: invalid memory address or nil pointer dereference" := by
  exact ⟨rfl, rfl⟩

/-- C8 (amended): `NewSubscriptionWatcher` succeeds exactly when the 64-bit
nanosecond durations computed from the configuration land in `(0, 24h]` and
`(0, 1h]`; on the wrap-free range (`|LookBehindMinutes| ≤ 153722867`,
`|TickerIntervalSeconds| ≤ 9223372036`) this coincides with the claimed
bounds `0 < x ≤ 1440` and `0 < y ≤ 3600`, but 64-bit wraparound lets some
huge out-of-bounds values construct successfully. -/
theorem construction_validation (conf : SubscriptionWatcherConfig) :
    (constructionOk conf = true ↔
      (0 < wrap64 (conf.LookBehindMinutes * oneMinute) ∧
       wrap64 (conf.LookBehindMinutes * oneMinute) ≤ 24 * oneHour ∧
       0 < wrap64 (conf.TickerIntervalSeconds * oneSecond) ∧
       wrap64 (conf.TickerIntervalSeconds * oneSecond) ≤ oneHour)) ∧
    (conf.LookBehindMinutes.natAbs ≤ 153722867 →
     conf.TickerIntervalSeconds.natAbs ≤ 9223372036 →
      (constructionOk conf = true ↔
        (0 < conf.LookBehindMinutes ∧ conf.LookBehindMinutes ≤ 1440 ∧
         0 < conf.TickerIntervalSeconds ∧ conf.TickerIntervalSeconds ≤ 3600))) := by
  have hmain : constructionOk conf = true ↔
      (0 < wrap64 (conf.LookBehindMinutes * oneMinute) ∧
       wrap64 (conf.LookBehindMinutes * oneMinute) ≤ 24 * oneHour ∧
       0 < wrap64 (conf.TickerIntervalSeconds * oneSecond) ∧
       wrap64 (conf.TickerIntervalSeconds * oneSecond) ≤ oneHour) := by
    simp only [constructionOk, NewSubscriptionWatcher]
    split_ifs with h1 h2 h3 h4 <;> simp <;> omega
  refine ⟨hmain, ?_⟩
  intro hlb hti
  have elb : wrap64 (conf.LookBehindMinutes * oneMinute) =
      conf.LookBehindMinutes * oneMinute := by
    apply wrap64_eq_self <;> simp only [oneMinute] <;> omega
  have eti : wrap64 (conf.TickerIntervalSeconds * oneSecond) =
      conf.TickerIntervalSeconds * oneSecond := by
    apply wrap64_eq_self <;> simp only [oneSecond] <;> omega
  rw [hmain, elb, eti]
  simp only [oneMinute, oneSecond, oneHour]
  omega

/-- Witness for C8 (amended) at a concrete in-bounds configuration:
`LookBehindMinutes = 60`, `TickerIntervalSeconds = 300` constructs. -/
theorem construction_validation_witness :
    constructionOk { LookBehindMinutes := 60, TickerIntervalSeconds := 300 } = true := by
  exact ((construction_validation
      { LookBehindMinutes := 60, TickerIntervalSeconds := 300 }).2
    (by decide) (by decide)).mpr (by decide)

/-- C8 counterexample: `LookBehindMinutes = 307445735` is far outside
`0 < x ≤ 1440`, yet construction succeeds, because
`307445735 * 60e9 = 2^64 + 26290448384` wraps to a 26-second int64
duration that passes both bounds checks. -/
theorem construction_overflow_counterexample :
    constructionOk { LookBehindMinutes := 307445735, TickerIntervalSeconds := 1 } = true ∧
    ¬((307445735 : Int) ≤ 1440) := by
  exact ⟨by decide, by decide⟩

/-- C2 (amended): when the stored `lastRequestTime = L` for the Resource's
content type is non-zero and the signed difference `L - R` (stored minus
request time) is at least 1 minute and at most 1 day, the fetcher calls
`Content.List` with window start `L` and end `R`.  (The claim's absolute
value `abs (L - R)` does not match the code, which branches on the signed
difference; see the counterexample.) -/
theorem window_start_eq_stored (cfg : SubscriptionWatcherConfig) (env : FetchEnv)
    (s : WatcherState) (r : Resource) (ct : ContentType) (L : Time) (out : FetchOutput)
    (hct : r.Request.ContentType = some ct)
    (hL : s.lastRequestTime ct = some L)
    (hnz : L ≠ 0)
    (h1 : oneMinute ≤ L - r.Request.RequestTime)
    (h2 : L - r.Request.RequestTime ≤ intervalOneDay)
    (hrun : fetchStep cfg env s r = Except.ok out) :
    out.contentCall = some (ct, L, r.Request.RequestTime) := by
  have hgl : getLastRequestTime (setBusy s ct) ct = L := by
    simp [getLastRequestTime, setBusy, hL]
  have hws : windowStart cfg (getLastRequestTime (setBusy s ct) ct)
      r.Request.RequestTime = L := by
    rw [hgl]
    have hc1 : ¬(L = 0 ∨ L - r.Request.RequestTime < oneMinute) := by
      intro h
      rcases h with h | h
      · exact hnz h
      · exact not_lt.mpr h1 h
    have hc2 : ¬(L - r.Request.RequestTime > intervalOneDay) :=
      not_lt.mpr h2
    unfold windowStart
    rw [if_neg hc1, if_neg hc2]
  simp only [fetchStep, hct] at hrun
  rw [hws] at hrun
  split at hrun
  · injection hrun with h
    subst h
    rfl
  · injection hrun with h
    subst h
    rfl

/-- Witness for C2 (amended): stored `L = 1 minute`, request time `R = 0`;
the content listing is called with window `[L, R]`. -/
theorem window_start_eq_stored_witness :
    ∃ out, fetchStep cfgDefault envEmptyOk
        (setLastRequestTime initialState ContentType.AuditExchange oneMinute)
        { Request := { ContentType := some ContentType.AuditExchange, RequestTime := 0 } } =
      Except.ok out ∧
      out.contentCall = some (ContentType.AuditExchange, oneMinute, 0) := by
  refine ⟨_, rfl, ?_⟩
  exact window_start_eq_stored cfgDefault envEmptyOk
    (setLastRequestTime initialState ContentType.AuditExchange oneMinute)
    { Request := { ContentType := some ContentType.AuditExchange, RequestTime := 0 } }
    ContentType.AuditExchange oneMinute _ rfl (by decide) (by decide) (by decide)
    (by decide) rfl

/-- C2 counterexample: `L = 5 min`, `R = 10 min`, look-behind 60 min.  The
claim's hypotheses hold (`L` non-zero, `abs (L - R) = 5 min ≥ 1 min`,
`L - R ≤ 1 day`), but the fetcher calls `Content.List` with start
`R - 60 min = -50 min`, not `L`: the code branches on the signed
`delta = L - R = -5 min < 1 min` and takes the look-behind branch. -/
theorem window_start_counterexample :
    (setLastRequestTime initialState ContentType.AuditExchange
        (5 * oneMinute)).lastRequestTime ContentType.AuditExchange =
      some (5 * oneMinute) ∧
    (5 * oneMinute : Int) ≠ 0 ∧
    oneMinute ≤ |(5 * oneMinute : Int) - 10 * oneMinute| ∧
    ((5 * oneMinute : Int) - 10 * oneMinute) ≤ intervalOneDay ∧
    (fetchStep cfgDefault envEmptyOk
        (setLastRequestTime initialState ContentType.AuditExchange (5 * oneMinute))
        { Request := { ContentType := some ContentType.AuditExchange,
                       RequestTime := 10 * oneMinute } }).map FetchOutput.contentCall =
      Except.ok (some (ContentType.AuditExchange, -(50 * oneMinute), 10 * oneMinute)) ∧
    (-(50 * oneMinute) : Int) ≠ 5 * oneMinute := by
  refine ⟨by decide, by decide, by decide, by decide, ?_, by decide⟩
  rfl

/-- C3 (amended): every Resource emitted on the output by a fetcher carries
the content type of the Resource it received, which is set; the emitted
Resource need not have a non-empty response or error list (see the
counterexample with a successful empty content listing). -/
theorem fetcher_emitted_request_content_type (cfg : SubscriptionWatcherConfig)
    (env : FetchEnv) (s : WatcherState) (r : Resource) (out : FetchOutput)
    (hrun : fetchStep cfg env s r = Except.ok out) :
    ∀ res ∈ out.emitted, res.Request.ContentType = r.Request.ContentType ∧
      res.Request.ContentType.isSome = true := by
  cases hct : r.Request.ContentType with
  | none =>
    simp only [fetchStep, hct] at hrun
    exact Except.noConfusion hrun
  | some ct =>
    intro res hres
    simp only [fetchStep, hct] at hrun
    split at hrun
    · injection hrun with h
      subst h
      have hres' : res ∈ [r.AddError _] := hres
      obtain rfl := List.mem_singleton.mp hres'
      simp [Resource.AddError, hct]
    · injection hrun with h
      subst h
      have hres' : res ∈ [Resource.SetResponse _ _] := hres
      obtain rfl := List.mem_singleton.mp hres'
      simp only [Resource.SetResponse]
      rw [processContent_request]
      simp [hct]

/-- Witness for C3 (amended): a concrete fetch emits only Resources whose
Request content type is `Audit.Exchange`. -/
theorem fetcher_emitted_request_content_type_witness :
    ∃ out, fetchStep cfgDefault envEmptyOk initialState
        { Request := { ContentType := some ContentType.AuditExchange, RequestTime := 0 } } =
      Except.ok out ∧
      ∀ res ∈ out.emitted, res.Request.ContentType = some ContentType.AuditExchange ∧
        res.Request.ContentType.isSome = true := by
  refine ⟨_, rfl, ?_⟩
  intro res hres
  have h := fetcher_emitted_request_content_type cfgDefault envEmptyOk initialState
    { Request := { ContentType := some ContentType.AuditExchange, RequestTime := 0 } }
    _ rfl res hres
  simpa using h

/-- C3 counterexample: with a successful content listing that returns no
descriptors, the fetcher emits exactly one Resource whose response and error
list are both empty, contradicting the claimed disjunction. -/
theorem emitted_both_empty_counterexample :
    (fetchStep cfgDefault envEmptyOk initialState
        { Request := { ContentType := some ContentType.AuditExchange,
                       RequestTime := 0 } }).map
      (fun out => out.emitted.map (fun res => (res.Response, res.Errors))) =
      Except.ok [([], [])] := by
  rfl

/-- C4: when `Content.List` fails, exactly one Resource is emitted, carrying
the received Request and that error with an empty response; the stored
`lastRequestTime` and `lastContentCreated` maps are unchanged for every
content type, and the busy flag of the fetched content type ends cleared. -/
theorem content_list_failure_isolation (cfg : SubscriptionWatcherConfig) (env : FetchEnv)
    (s : WatcherState) (r : Resource) (ct : ContentType) (st en : Time) (e : Err)
    (out : FetchOutput)
    (hct : r.Request.ContentType = some ct)
    (hresp : r.Response = [])
    (hrun : fetchStep cfg env s r = Except.ok out)
    (hcall : out.contentCall = some (ct, st, en))
    (hfail : env.contentList ct st en = Except.error e) :
    out.emitted = [r.AddError e] ∧
    (r.AddError e).Request = r.Request ∧
    (r.AddError e).Response = [] ∧
    (r.AddError e).Errors = r.Errors ++ [e] ∧
    (∀ c, out.state.lastRequestTime c = s.lastRequestTime c) ∧
    (∀ c, out.state.lastContentCreated c = s.lastContentCreated c) ∧
    out.state.contentTypeBusy ct = some false := by
  simp only [fetchStep, hct] at hrun
  split at hrun
  · rename_i e' heq
    injection hrun with h
    subst h
    simp only [Option.some.injEq, Prod.mk.injEq] at hcall
    obtain ⟨-, h2, h3⟩ := hcall
    subst h2
    subst h3
    rw [heq] at hfail
    injection hfail with h4
    subst h4
    refine ⟨rfl, rfl, by simp [Resource.AddError, hresp], by simp [Resource.AddError],
      fun c => rfl, fun c => rfl, ?_⟩
    simp [unsetBusy]
  · rename_i content heq
    injection hrun with h
    subst h
    simp only [Option.some.injEq, Prod.mk.injEq] at hcall
    obtain ⟨-, h2, h3⟩ := hcall
    subst h2
    subst h3
    rw [heq] at hfail
    exact Except.noConfusion hfail

/-- Witness for C4: `Content.List` fails with a transport error on a cold
`Audit.SharePoint` fetch; one error Resource is emitted, the request-time
watermark stays unset, and the content type ends not busy. -/
theorem content_list_failure_isolation_witness :
    ∃ out, fetchStep cfgDefault envListFails initialState
        { Request := { ContentType := some ContentType.AuditSharePoint, RequestTime := 0 } } =
      Except.ok out ∧
      out.emitted = [Resource.AddError
        { Request := { ContentType := some ContentType.AuditSharePoint, RequestTime := 0 } }
        "transport_err"] ∧
      out.state.lastRequestTime ContentType.AuditSharePoint = none ∧
      out.state.contentTypeBusy ContentType.AuditSharePoint = some false := by
  refine ⟨_, rfl, ?_, ?_, ?_⟩
  · exact (content_list_failure_isolation cfgDefault envListFails initialState
      { Request := { ContentType := some ContentType.AuditSharePoint, RequestTime := 0 } }
      ContentType.AuditSharePoint (0 - wrap64 (60 * oneMinute)) 0 "transport_err" _
      rfl rfl rfl rfl rfl).1
  · exact ((content_list_failure_isolation cfgDefault envListFails initialState
      { Request := { ContentType := some ContentType.AuditSharePoint, RequestTime := 0 } }
      ContentType.AuditSharePoint (0 - wrap64 (60 * oneMinute)) 0 "transport_err" _
      rfl rfl rfl rfl rfl).2.2.2.2.1 ContentType.AuditSharePoint).trans rfl
  · exact (content_list_failure_isolation cfgDefault envListFails initialState
      { Request := { ContentType := some ContentType.AuditSharePoint, RequestTime := 0 } }
      ContentType.AuditSharePoint (0 - wrap64 (60 * oneMinute)) 0 "transport_err" _
      rfl rfl rfl rfl rfl).2.2.2.2.2.2

/-- C5: in step 6 of a fetch, a descriptor whose parsed `ContentCreated` is
at or below the `lastContentCreated` snapshot causes no `Audit.List` call
and contributes no records; every other descriptor causes the monotonic
watermark write of its `ContentCreated` followed by an `Audit.List` call
whose returned records are appended.  Stated as: the loop's audit calls,
records and final watermark are exactly the per-descriptor contributions,
with those contributions characterized on both sides of the check. -/
theorem descriptor_processing (env : FetchEnv) (ct : ContentType) (lastCC : Time)
    (s : WatcherState) (r : Resource) (content : List Content) :
    (processContent env ct lastCC s r [] [] content).auditCalls =
      content.filterMap (descCall env lastCC) ∧
    (processContent env ct lastCC s r [] [] content).records =
      descRecordsAll env lastCC content ∧
    (processContent env ct lastCC s r [] [] content).state.lastContentCreated ct =
      List.foldl (wmStep env lastCC) (s.lastContentCreated ct) content ∧
    (∀ c created, env.parseCreated c.ContentCreated = Except.ok created →
      created ≤ lastCC →
      descCall env lastCC c = none ∧ descRecords env lastCC c = []) ∧
    (∀ c created, env.parseCreated c.ContentCreated = Except.ok created →
      lastCC < created →
      descCall env lastCC c = some c.ContentID ∧
      (∀ w, wmStep env lastCC w c = updateWatermark w created) ∧
      (∀ audits, env.auditList c.ContentID = Except.ok audits →
        descRecords env lastCC c = audits)) := by
  refine ⟨?_, ?_, ?_, ?_, ?_⟩
  · simpa using processContent_calls env ct lastCC content s r [] []
  · simpa using processContent_records env ct lastCC content s r [] []
  · simpa using processContent_lcc env ct lastCC content s r [] [] ct
  · intro c created hp hc
    exact ⟨by simp [descCall, hp, hc], by simp [descRecords, hp, hc]⟩
  · intro c created hp hc
    refine ⟨by simp [descCall, hp, not_le.mpr hc], ?_, ?_⟩
    · intro w
      simp [wmStep, hp, not_le.mpr hc]
    · intro audits ha
      simp [descRecords, hp, not_le.mpr hc, ha]

/-- Witness for C5: with snapshot watermark 5 a descriptor created at 2 is
skipped (no audit call), and with snapshot 0 the same run calls both
descriptors of Scenario E. -/
theorem descriptor_processing_witness :
    (processContent envScenarioE ContentType.AuditExchange 5 initialState {} [] []
      [{ ContentID := "C1", ContentCreated := "t1" }]).auditCalls = [] ∧
    descCall envScenarioE 5 { ContentID := "C1", ContentCreated := "t1" } = none ∧
    (processContent envScenarioE ContentType.AuditExchange 0 initialState {} [] []
      [{ ContentID := "C1", ContentCreated := "t1" },
       { ContentID := "C2", ContentCreated := "t2" }]).auditCalls = ["C1", "C2"] := by
  refine ⟨?_, ?_, ?_⟩
  · exact ((descriptor_processing envScenarioE ContentType.AuditExchange 5 initialState {}
      [{ ContentID := "C1", ContentCreated := "t1" }]).1).trans (by decide)
  · exact ((descriptor_processing envScenarioE ContentType.AuditExchange 5 initialState {}
      []).2.2.2.1 { ContentID := "C1", ContentCreated := "t1" } 1 rfl (by decide)).1
  · exact ((descriptor_processing envScenarioE ContentType.AuditExchange 0 initialState {}
      [{ ContentID := "C1", ContentCreated := "t1" },
       { ContentID := "C2", ContentCreated := "t2" }]).1).trans (by decide)

/-- C7: during a fetch whose content listing returned `pre ++ c :: post`, a
failure for descriptor `c` — either its `ContentCreated` fails to parse, or
it passes the watermark check and its `Audit.List` fails — does not abort
the Resource: the fetch still emits exactly one Resource, the error is on
its error list, the audit calls of all other descriptors still happen, and
the records of every descriptor whose `Audit.List` succeeded still appear
in the emitted Resource's response (which is exactly the contributions of
the other descriptors). -/
theorem audit_failure_isolation (cfg : SubscriptionWatcherConfig) (env : FetchEnv)
    (s : WatcherState) (r : Resource) (ct : ContentType) (st en : Time)
    (pre post : List Content) (c : Content) (e : Err) (out : FetchOutput)
    (hct : r.Request.ContentType = some ct)
    (hrun : fetchStep cfg env s r = Except.ok out)
    (hcall : out.contentCall = some (ct, st, en))
    (hok : env.contentList ct st en = Except.ok (pre ++ c :: post))
    (hfail : env.parseCreated c.ContentCreated = Except.error e ∨
      (∃ created, env.parseCreated c.ContentCreated = Except.ok created ∧
        getLastContentCreated s ct < created ∧
        env.auditList c.ContentID = Except.error e)) :
    ∃ res, out.emitted = [res] ∧
      e ∈ res.Errors ∧
      res.Request = r.Request ∧
      res.Response =
        descRecordsAll env (getLastContentCreated s ct) pre ++
          descRecordsAll env (getLastContentCreated s ct) post ∧
      out.auditCalls =
        pre.filterMap (descCall env (getLastContentCreated s ct)) ++
          ((descCall env (getLastContentCreated s ct) c).toList ++
            post.filterMap (descCall env (getLastContentCreated s ct))) ∧
      (∀ d createdD audits, d ∈ pre ++ post →
        env.parseCreated d.ContentCreated = Except.ok createdD →
        getLastContentCreated s ct < createdD →
        env.auditList d.ContentID = Except.ok audits →
        ∀ a ∈ audits, a ∈ res.Response) := by
  have hde : descErr env (getLastContentCreated s ct) c = some e := by
    rcases hfail with hparse | ⟨created, hpc, hlt, hal⟩
    · simp [descErr, hparse]
    · simp [descErr, hpc, not_le.mpr hlt, hal]
  have hdr : descRecords env (getLastContentCreated s ct) c = [] := by
    rcases hfail with hparse | ⟨created, hpc, hlt, hal⟩
    · simp [descRecords, hparse]
    · simp [descRecords, hpc, not_le.mpr hlt, hal]
  have hsw : getLastContentCreated (setBusy s ct) ct = getLastContentCreated s ct := rfl
  simp only [fetchStep, hct] at hrun
  rw [hsw] at hrun
  split at hrun
  · rename_i e' heq
    injection hrun with h
    subst h
    simp only [Option.some.injEq, Prod.mk.injEq] at hcall
    obtain ⟨-, h2, h3⟩ := hcall
    subst h2
    subst h3
    rw [heq] at hok
    exact Except.noConfusion hok
  · rename_i content heq
    injection hrun with h
    subst h
    simp only [Option.some.injEq, Prod.mk.injEq] at hcall
    obtain ⟨-, h2, h3⟩ := hcall
    subst h2
    subst h3
    rw [heq] at hok
    injection hok with h4
    subst h4
    refine ⟨_, rfl, ?_, ?_, ?_, ?_, ?_⟩
    · rw [setResponse_errors,
        processContent_errors env ct (getLastContentCreated s ct) (pre ++ c :: post) _ r [] [],
        List.filterMap_append]
      simp [List.filterMap_cons, hde]
    · rw [setResponse_request, processContent_request]
    · rw [setResponse_response,
        processContent_records env ct (getLastContentCreated s ct) (pre ++ c :: post) _ r [] [],
        descRecordsAll_append]
      simp [descRecordsAll, hdr]
    · rw [processContent_calls env ct (getLastContentCreated s ct) (pre ++ c :: post) _ r [] [],
        List.filterMap_append]
      cases hdcc : descCall env (getLastContentCreated s ct) c with
      | none => simp [List.filterMap_cons, hdcc, Option.toList]
      | some b => simp [List.filterMap_cons, hdcc, Option.toList]
    · intro d createdD audits hd hpd hltd had a hain
      rw [setResponse_response,
        processContent_records env ct (getLastContentCreated s ct) (pre ++ c :: post) _ r [] [],
        descRecordsAll_append]
      simp only [List.nil_append]
      have hdrd : a ∈ descRecords env (getLastContentCreated s ct) d := by
        simpa [descRecords, hpd, not_le.mpr hltd, had] using hain
      rcases List.mem_append.mp hd with h | h
      · exact List.mem_append_left _ (mem_descRecordsAll env _ pre d h a hdrd)
      · exact List.mem_append_right _
          (List.mem_append_right _ (mem_descRecordsAll env _ post d h a hdrd))

/-- Witness for C7 (Scenario E through a whole fetch): `Content.List`
returns `[C1, C2]`, `Audit.List(C1)` fails, `Audit.List(C2)` returns
`[r5]`; the fetch emits one Resource whose errors contain the C1 error and
whose response is `[r5]`, and both descriptors were called. -/
theorem audit_failure_isolation_witness :
    ∃ out, fetchStep cfgDefault envScenarioE initialState
        { Request := { ContentType := some ContentType.AuditExchange, RequestTime := 0 } } =
      Except.ok out ∧
      ∃ res, out.emitted = [res] ∧
        "audit_err_C1" ∈ res.Errors ∧
        res.Response = [{ Id := some "r5" }] ∧
        out.auditCalls = ["C1", "C2"] := by
  refine ⟨_, rfl, ?_⟩
  obtain ⟨res, hemit, herr, hreq, hresp, hcalls, hmem⟩ :=
    audit_failure_isolation cfgDefault envScenarioE initialState
      { Request := { ContentType := some ContentType.AuditExchange, RequestTime := 0 } }
      ContentType.AuditExchange (0 - wrap64 (60 * oneMinute)) 0
      [] [{ ContentID := "C2", ContentCreated := "t2" }]
      { ContentID := "C1", ContentCreated := "t1" } "audit_err_C1" _
      rfl rfl rfl rfl
      (Or.inr ⟨1, rfl, by decide, rfl⟩)
  exact ⟨res, hemit, herr, hresp.trans (by decide), hcalls.trans (by decide)⟩

/-- C9: a descriptor that passes the watermark check has its
`ContentCreated` written to the watermark before `Audit.List` is called, so
even when its `Audit.List` fails the fetch ends with watermark at or above
that timestamp and the descriptor contributed no records; any later
descriptor loop whose snapshot is at or above that timestamp makes no audit
call for it and takes no records from it; and a whole fetch never lowers
the `lastContentCreated` entry, so every later fetch's snapshot stays at or
above it. -/
theorem failed_descriptor_not_retried (env : FetchEnv) (ct : ContentType) (c : Content)
    (created : Time) (e : Err)
    (hp : env.parseCreated c.ContentCreated = Except.ok created)
    (ha : env.auditList c.ContentID = Except.error e) :
    (∀ (lastCC : Time) (s : WatcherState) (r : Resource) (pre post : List Content),
      lastCC < created →
      (∃ v, (processContent env ct lastCC s r [] []
          (pre ++ c :: post)).state.lastContentCreated ct = some v ∧ created ≤ v) ∧
      descRecords env lastCC c = []) ∧
    (∀ (env₂ : FetchEnv) (lastCC₂ : Time),
      env₂.parseCreated c.ContentCreated = Except.ok created → created ≤ lastCC₂ →
      ∀ (s₂ : WatcherState) (r₂ : Resource) (pre₂ post₂ : List Content),
        (processContent env₂ ct lastCC₂ s₂ r₂ [] [] (pre₂ ++ c :: post₂)).auditCalls =
          (pre₂ ++ post₂).filterMap (descCall env₂ lastCC₂) ∧
        (processContent env₂ ct lastCC₂ s₂ r₂ [] [] (pre₂ ++ c :: post₂)).records =
          descRecordsAll env₂ lastCC₂ (pre₂ ++ post₂)) ∧
    (∀ (cfg : SubscriptionWatcherConfig) (env' : FetchEnv) (s' : WatcherState)
      (r' : Resource) (out : FetchOutput) (v : Time),
      fetchStep cfg env' s' r' = Except.ok out →
      s'.lastContentCreated ct = some v →
      ∃ v', out.state.lastContentCreated ct = some v' ∧ v ≤ v') := by
  refine ⟨?_, ?_, ?_⟩
  · intro lastCC s r pre post hpass
    constructor
    · rw [processContent_lcc env ct lastCC (pre ++ c :: post) s r [] [] ct,
        if_pos rfl, List.foldl_append, List.foldl_cons]
      have hw : wmStep env lastCC
          (List.foldl (wmStep env lastCC) (s.lastContentCreated ct) pre) c =
          updateWatermark
            (List.foldl (wmStep env lastCC) (s.lastContentCreated ct) pre) created := by
        simp [wmStep, hp, not_le.mpr hpass]
      rw [hw]
      exact foldl_wmStep_ge env lastCC post _ created
        (updateWatermark_some_ge _ created)
    · simp [descRecords, hp, not_le.mpr hpass, ha]
  · intro env₂ lastCC₂ hp₂ hle s₂ r₂ pre₂ post₂
    have hdc : descCall env₂ lastCC₂ c = none := by
      simp [descCall, hp₂, hle]
    have hdr : descRecords env₂ lastCC₂ c = [] := by
      simp [descRecords, hp₂, hle]
    constructor
    · rw [processContent_calls env₂ ct lastCC₂ (pre₂ ++ c :: post₂) s₂ r₂ [] [],
        List.filterMap_append, List.filterMap_append]
      simp [List.filterMap_cons, hdc]
    · rw [processContent_records env₂ ct lastCC₂ (pre₂ ++ c :: post₂) s₂ r₂ [] [],
        descRecordsAll_append, descRecordsAll_append]
      simp [descRecordsAll, hdr]
  · intro cfg env' s' r' out v hrun hv
    cases hct : r'.Request.ContentType with
    | none =>
      simp only [fetchStep, hct] at hrun
      exact Except.noConfusion hrun
    | some ct' =>
      simp only [fetchStep, hct] at hrun
      split at hrun
      · injection hrun with h
        subst h
        exact ⟨v, hv, le_refl v⟩
      · rename_i content heq
        injection hrun with h
        subst h
        have hpc := processContent_lcc env' ct'
          (getLastContentCreated (setBusy s' ct') ct') content
          (setLastRequestTime (setBusy s' ct') ct' r'.Request.RequestTime) r' [] [] ct
        by_cases hcc : ct = ct'
        · subst hcc
          rw [if_pos rfl] at hpc
          have hstart : (setLastRequestTime (setBusy s' ct) ct
              r'.Request.RequestTime).lastContentCreated ct = some v := hv
          obtain ⟨y, hy, hvy⟩ := foldl_wmStep_ge env'
            (getLastContentCreated (setBusy s' ct) ct) content
            ((setLastRequestTime (setBusy s' ct) ct
              r'.Request.RequestTime).lastContentCreated ct) v ⟨v, hstart, le_refl v⟩
          exact ⟨y, hpc.trans hy, hvy⟩
        · rw [if_neg hcc] at hpc
          exact ⟨v, hpc.trans hv, le_refl v⟩

/-- Witness for C9: descriptor C1 of Scenario E fails its audit fetch at
snapshot 0; the final watermark is at least its timestamp 1, it contributed
no records, and a later loop at snapshot 1 makes no audit call at all. -/
theorem failed_descriptor_not_retried_witness :
    (∃ v, (processContent envScenarioE ContentType.AuditExchange 0 initialState {} [] []
        [{ ContentID := "C1", ContentCreated := "t1" }]).state.lastContentCreated
        ContentType.AuditExchange = some v ∧ (1 : Time) ≤ v) ∧
    (processContent envScenarioE ContentType.AuditExchange 1 initialState {} [] []
      [{ ContentID := "C1", ContentCreated := "t1" }]).auditCalls = [] := by
  have h := failed_descriptor_not_retried envScenarioE ContentType.AuditExchange
    { ContentID := "C1", ContentCreated := "t1" } 1 "audit_err_C1" rfl rfl
  constructor
  · exact (h.1 0 initialState {} [] [] (by decide)).1
  · exact ((h.2.1 envScenarioE 1 rfl (by decide) initialState {} [] []).1).trans (by decide)

end Office365
